import Mathlib

/-!
Shallow embedding of the opencode-usage loaders and renderer.

The store behind `src/loader.ts` is a SQLite database; we model the result of
opening it and running one query as `Except String (List MessageRow)`, where
`Except.error e` models `openDb`/`query` throwing with message `e`.  A row's
`data` column holds JSON text; `Except.error` there models `JSON.parse`
throwing.  JS numbers used as millisecond timestamps are modelled as `Int`;
fractions (quota percentages, costs) as `Rat`.
-/

namespace OpencodeUsage

structure ModelRef where
  providerID : String
  modelID : String
deriving Repr, DecidableEq

structure TokenCache where
  read : Int
  write : Int
deriving Repr, DecidableEq

structure TokenUsage where
  input : Int
  output : Int
  reasoning : Int
  cache : TokenCache
deriving Repr, DecidableEq

structure TimeInfo where
  created : Option Int := none
  completed : Option Int := none
deriving Repr, DecidableEq

/-- The JSON payload stored in a message row's `data` column
(the fields the loaders read). -/
structure MsgData where
  role : String
  model : Option ModelRef := none
  providerID : Option String := none
  tokens : Option TokenUsage := none
  time : Option TimeInfo := none
deriving Repr, DecidableEq

/-- Type `MessageJson` from `types.ts`: the row identifiers spread together with the
parsed `data` payload. -/
structure MessageJson where
  id : String
  sessionID : String
  role : String
  model : Option ModelRef := none
  providerID : Option String := none
  tokens : Option TokenUsage := none
  time : Option TimeInfo := none
deriving Repr, DecidableEq

/-- One row of the `message` table.  `data` is the raw JSON column;
`Except.error e` models text on which `JSON.parse` throws. -/
structure MessageRow where
  id : String
  session_id : String
  time_created : Int
  data : Except String MsgData
deriving Repr

/-- Function `rowToMessage` from `loader.ts`: parse the `data` column and spread it with
the row identifiers; a parse failure propagates as a thrown exception. -/
def rowToMessage (row : MessageRow) : Except String MessageJson :=
  row.data.map fun d =>
    { id := row.id, sessionID := row.session_id, role := d.role, model := d.model,
      providerID := d.providerID, tokens := d.tokens, time := d.time }

/-- Model of `rows.map(rowToMessage)`: JS evaluates it left to right and the first parse
failure aborts the whole `try` block. -/
def rowsToMessages : List MessageRow → Except String (List MessageJson)
  | [] => .ok []
  | r :: rs =>
    match rowToMessage r with
    | .ok m => (rowsToMessages rs).map (m :: ·)
    | .error e => .error e

/-- ASCII model of JS `String.prototype.toLowerCase`. -/
def lowerChar (c : Char) : Char :=
  if 'A' ≤ c ∧ c ≤ 'Z' then Char.ofNat (c.toNat + 32) else c

/-- ASCII model of JS `String.prototype.toLowerCase`. -/
def toLowerCase (s : String) : String := String.mk (s.data.map lowerChar)

/-- Fallback chain `msg.model?.providerID ?? msg.providerID ?? "unknown"`. -/
def providerIdOf (msg : MessageJson) : String :=
  match msg.model with
  | some m => m.providerID
  | none => msg.providerID.getD "unknown"

/-- Function `isValidMessage` from `loader.ts`.  `providerFilter` is an optional string
parameter; JS truthiness makes `undefined` and `""` both skip the filter. -/
def isValidMessage (msg : MessageJson) (providerFilter : Option String := none) : Bool :=
  if msg.role = "user" then false
  else if msg.tokens.isNone then false
  else
    match providerFilter with
    | none => true
    | some f =>
      if f = "" then true
      else if toLowerCase (providerIdOf msg) ≠ f then false
      else true

/-- Function `loadMessages` from `loader.ts` (SQLite variant): query every row, parse,
filter; any throw yields `[]`. -/
def loadMessages (store : Except String (List MessageRow))
    (providerFilter : Option String := none) : List MessageJson :=
  match store with
  | .error _ => []
  | .ok rows =>
    match rowsToMessages rows with
    | .ok msgs => msgs.filter (fun m => isValidMessage m providerFilter)
    | .error _ => []

/-- Function `loadRecentMessages` from `loader.ts`: query rows with
`time_created >= now - hoursBack*3600000`, parse, filter; any throw yields `[]`. -/
def loadRecentMessages (store : Except String (List MessageRow)) (now : Int)
    (hoursBack : Int := 24) (providerFilter : Option String := none) : List MessageJson :=
  let cutoffTime := now - hoursBack * 60 * 60 * 1000
  match store with
  | .error _ => []
  | .ok rows =>
    match rowsToMessages (rows.filter (fun r => cutoffTime ≤ r.time_created)) with
    | .ok msgs => msgs.filter (fun m => isValidMessage m providerFilter)
    | .error _ => []

/-- Function `loadMessages` from the file-tree loader (the Bun/Node dual-runtime file).
The directory walk plus the per-file reads are modelled by their outcome: the
outer `Except.error` models `readdirSync`/`statSync` throwing, and a `none`
entry models one file whose JSON read failed (skipped individually). -/
def loadMessagesFs (files : Except String (List (Option MessageJson)))
    (providerFilter : Option String := none) : List MessageJson :=
  match files with
  | .error _ => []
  | .ok results =>
    (results.filterMap id).filter fun msg =>
      if msg.role = "user" then false
      else if msg.tokens.isNone then false
      else
        match providerFilter with
        | none => true
        | some f =>
          if f = "" then true
          else if toLowerCase (providerIdOf msg) ≠ f then false
          else true

structure CursorState where
  lastTimestamp : Int
deriving Repr, DecidableEq

def createCursor : CursorState := ⟨0⟩

/-- Result of `loadMessagesIncremental`, together with the `console.error`
output produced by the `catch` branch. -/
structure IncrementalResult where
  messages : List MessageJson
  cursor : CursorState
  log : List String := []
deriving Repr

/-- Function `loadMessagesIncremental` from `loader.ts`: query rows with
`time_created > cursor.lastTimestamp`, parse and filter them, and advance the
cursor to the maximum `time_created` over the queried rows (the filter does not
restrict the cursor computation).  Any throw yields an empty batch, the cursor
unchanged, and a logged error. -/
def loadMessagesIncremental (store : Except String (List MessageRow))
    (cursor : CursorState) (providerFilter : Option String := none) : IncrementalResult :=
  match store with
  | .error e =>
    { messages := []
      cursor := ⟨cursor.lastTimestamp⟩
      log := ["Error in incremental load: " ++ e] }
  | .ok allRows =>
    let rows := allRows.filter (fun r => cursor.lastTimestamp < r.time_created)
    match rowsToMessages rows with
    | .error e =>
      { messages := []
        cursor := ⟨cursor.lastTimestamp⟩
        log := ["Error in incremental load: " ++ e] }
    | .ok msgs =>
      let messages := msgs.filter (fun m => isValidMessage m providerFilter)
      let maxTimestamp := rows.foldl
        (fun acc r => if acc < r.time_created then r.time_created else acc)
        cursor.lastTimestamp
      { messages := messages, cursor := ⟨maxTimestamp⟩, log := [] }

/-! ### Codex quota source loader -/

structure RateLimitWindow where
  used_percent : Rat
  reset_at : Option Int := none
deriving Repr, DecidableEq

structure RateLimit where
  primary_window : Option RateLimitWindow := none
  secondary_window : Option RateLimitWindow := none
deriving Repr, DecidableEq

structure CodexUsageResponse where
  rate_limit : Option RateLimit := none
  code_review_rate_limit : Option RateLimit := none
deriving Repr, DecidableEq

structure QuotaSnapshot where
  source : String
  label : String
  used : Rat
  resetAt : Option Int := none
  error : Option String := none
deriving Repr, DecidableEq

/-- One HTTP response from the Codex usage endpoint.  `json` is the result of
`response.json()`; `Except.error` there models a body on which JSON parsing
throws (caught by the outer `catch`). -/
structure HttpResponse where
  ok : Bool
  status : Nat
  json : Except String CodexUsageResponse
deriving Repr

/-- The snapshots pushed on the success path of `loadCodexQuota`, one per
present rate-limit window, each with `used = used_percent / 100`. -/
def codexWindowSnapshots (data : CodexUsageResponse) : List QuotaSnapshot :=
  (match data.rate_limit >>= RateLimit.primary_window with
   | some w => [{ source := "codex", label := "Codex - 5h Limit",
                  used := w.used_percent / 100, resetAt := w.reset_at }]
   | none => []) ++
  (match data.rate_limit >>= RateLimit.secondary_window with
   | some w => [{ source := "codex", label := "Codex - Weekly",
                  used := w.used_percent / 100, resetAt := w.reset_at }]
   | none => []) ++
  (match data.code_review_rate_limit >>= RateLimit.primary_window with
   | some w => [{ source := "codex", label := "Codex - Code Review",
                  used := w.used_percent / 100, resetAt := w.reset_at }]
   | none => [])

/-- Function `loadCodexQuota`: fetch the Codex usage endpoint and normalize its
percent-scaled windows into quota snapshots.  `fetchResult` models the `fetch`
call: `Except.error e` is a thrown network error with message `e`.  A missing
token (JS truthiness: `undefined` or `""`), a non-ok response, a JSON parse
failure and an empty window set all produce a single error snapshot. -/
def loadCodexQuota (token : Option String)
    (fetchResult : Except String HttpResponse) : List QuotaSnapshot :=
  match token with
  | none =>
    [{ source := "codex", label := "Codex", used := 0,
       error := some "No --codex-token provided" }]
  | some t =>
    if t = "" then
      [{ source := "codex", label := "Codex", used := 0,
         error := some "No --codex-token provided" }]
    else
      match fetchResult with
      | .error e =>
        [{ source := "codex", label := "Codex", used := 0,
           error := some ("Request failed: " ++ e) }]
      | .ok response =>
        if !response.ok then
          [{ source := "codex", label := "Codex", used := 0,
             error := some ("API error: " ++ toString response.status) }]
        else
          match response.json with
          | .error e =>
            [{ source := "codex", label := "Codex", used := 0,
               error := some ("Request failed: " ++ e) }]
          | .ok data =>
            let results := codexWindowSnapshots data
            if results.length > 0 then results
            else
              [{ source := "codex", label := "Codex", used := 0,
                 error := some "No rate limit data" }]

/-- Window membership: `w` is one of the rate-limit windows carried by the response body. -/
def isWindowOf (data : CodexUsageResponse) (w : RateLimitWindow) : Prop :=
  (data.rate_limit >>= RateLimit.primary_window) = some w ∨
  (data.rate_limit >>= RateLimit.secondary_window) = some w ∨
  (data.code_review_rate_limit >>= RateLimit.primary_window) = some w

/-! ### Usage table renderer (`dashboard/usage-table.ts`) -/

/-- Structure `DailyStats` from `types.ts`, restricted to the fields the usage-table
renderer reads.  The JS `Set<string>` of models is modelled as its
insertion-ordered element list (`Array.from`). -/
structure DailyStats where
  date : String
  models : List String
  providers : List String
  input : Int
  output : Int
  cacheWrite : Int
  cacheRead : Int
  reasoning : Int
  cost : Rat
deriving Repr, DecidableEq

/-- Decidable string comparison used to model the JS sort comparators
(`localeCompare` on ASCII date keys and default lexicographic sort on model
names). -/
def strLe (a b : String) : Bool := a ≤ b

def charRepeat (c : Char) (n : Nat) : String := String.mk (List.replicate n c)

/-- JS `String.prototype.padEnd` with spaces. -/
def padRight (s : String) (len : Nat) : String :=
  s ++ charRepeat ' ' (len - s.length)

/-- JS `String.prototype.padStart` with spaces. -/
def padLeft (s : String) (len : Nat) : String :=
  charRepeat ' ' (len - s.length) ++ s

/-- JS `String.prototype.substring(0, n)`. -/
def strTake (s : String) (n : Nat) : String := String.mk (s.data.take n)

/-- Model of JS `Number.prototype.toFixed` over exact rationals (the renderer
feeds it token counts and dollar costs; binary-float rounding noise is not
modelled). -/
def toFixedRat (q : Rat) (digits : Nat) : String :=
  let denom : Int := (10 : Int) ^ digits
  let scaled : Int := ⌊q * (denom : Rat) + 1 / 2⌋
  let sign := if scaled < 0 then "-" else ""
  let a := scaled.natAbs
  let whole := a / denom.natAbs
  let frac := a % denom.natAbs
  if digits = 0 then sign ++ toString whole
  else sign ++ toString whole ++ "." ++ padLeft (toString frac) digits |>.replace " " "0"

/-- Function `formatNumber` from `usage-table.ts`. -/
def formatNumber (num : Int) : String :=
  if num ≥ 1000000 then toFixedRat ((num : Rat) / 1000000) 1 ++ "M"
  else if num ≥ 1000 then toFixedRat ((num : Rat) / 1000) 1 ++ "K"
  else toString num

/-- Function `formatCost` from `usage-table.ts`. -/
def formatCost (cost : Rat) : String := "$" ++ toFixedRat cost 2

inductive TableWidthTier
  | narrow
  | medium
  | wide
deriving Repr, DecidableEq

/-- Function `getTableWidthTier` from `usage-table.ts`. -/
def getTableWidthTier (width : Int) : TableWidthTier :=
  if width < 105 then .narrow
  else if width < 140 then .medium
  else .wide

/-- The tier `renderUsageTable` actually renders with:
`width ? getTableWidthTier(width) : "wide"` — an absent *or zero* width is
falsy in JS and selects the wide layout. -/
def renderTier (width : Option Int) : TableWidthTier :=
  match width with
  | none => .wide
  | some w => if w ≠ 0 then getTableWidthTier w else .wide

def usageTopLine (tier : TableWidthTier) : String :=
  let t := "┌" ++ charRepeat '─' 12
  let t := if tier = .wide then t ++ "┬" ++ charRepeat '─' 30 else t
  let t := if tier ≠ .narrow then t ++ "┬" ++ charRepeat '─' 12 else t
  t ++ "┬" ++ charRepeat '─' 10 ++ "┐"

def usageMidLine (tier : TableWidthTier) : String :=
  let t := "├" ++ charRepeat '─' 12
  let t := if tier = .wide then t ++ "┼" ++ charRepeat '─' 30 else t
  let t := if tier ≠ .narrow then t ++ "┼" ++ charRepeat '─' 12 else t
  t ++ "┼" ++ charRepeat '─' 10 ++ "┤"

def usageBottomLine (tier : TableWidthTier) : String :=
  let t := "└" ++ charRepeat '─' 12
  let t := if tier = .wide then t ++ "┴" ++ charRepeat '─' 30 else t
  let t := if tier ≠ .narrow then t ++ "┴" ++ charRepeat '─' 12 else t
  t ++ "┴" ++ charRepeat '─' 10 ++ "┘"

def usageHeader (tier : TableWidthTier) : String :=
  let h := "│" ++ padRight " Date" 12
  let h := if tier = .wide then h ++ "│" ++ padRight " Models" 30 else h
  let h := if tier ≠ .narrow then h ++ "│" ++ padLeft "Tokens " 12 else h
  h ++ "│" ++ padLeft "Cost " 10 ++ "│"

/-- One data row of the usage table.  In the wide tier the models cell shows
`Array.from(stats.models).sort()[0]?.substring(0, 28) ?? ""`. -/
def usageRow (tier : TableWidthTier) (date : String) (stats : DailyStats) : String :=
  let combinedInput := stats.input + stats.cacheRead + stats.cacheWrite
  let totalTokens := combinedInput + stats.output
  let row := "│" ++ padRight (" " ++ date) 12
  let row :=
    if tier = .wide then
      let models := stats.models.mergeSort strLe
      let firstModel :=
        match models.head? with
        | some m => strTake m 28
        | none => ""
      row ++ "│" ++ padRight (" " ++ firstModel) 30
    else row
  let row :=
    if tier ≠ .narrow then row ++ "│" ++ padLeft (formatNumber totalTokens ++ " ") 12
    else row
  row ++ "│" ++ padLeft (formatCost stats.cost ++ " ") 10 ++ "│"

def defaultDailyStats : DailyStats :=
  { date := "", models := [], providers := [], input := 0, output := 0,
    cacheWrite := 0, cacheRead := 0, reasoning := 0, cost := 0 }

/-- The running totals accumulated over the date loop:
`(totalInput, totalOutput, totalCost)` where `totalInput` already includes
cache reads and writes. -/
def usageTotals (dailyStats : List (String × DailyStats)) (dates : List String) :
    Int × Int × Rat :=
  dates.foldl
    (fun acc date =>
      let stats := (dailyStats.lookup date).getD defaultDailyStats
      (acc.1 + (stats.input + stats.cacheRead + stats.cacheWrite),
       acc.2.1 + stats.output, acc.2.2 + stats.cost))
    (0, 0, 0)

def usageTotalRow (tier : TableWidthTier) (totals : Int × Int × Rat) : String :=
  let grandTotal := totals.1 + totals.2.1
  let row := "│" ++ padRight " Total" 12
  let row := if tier = .wide then row ++ "│" ++ charRepeat ' ' 30 else row
  let row :=
    if tier ≠ .narrow then row ++ "│" ++ padLeft (formatNumber grandTotal ++ " ") 12
    else row
  row ++ "│" ++ padLeft (formatCost totals.2.2 ++ " ") 10 ++ "│"

/-- The lines of the rendered usage table, in order.  The JS code appends each
line followed by `"\n"` except the bottom border. -/
def renderUsageTableLines (dailyStats : List (String × DailyStats))
    (width : Option Int) : List String :=
  let sortedDates := (dailyStats.map Prod.fst).mergeSort strLe
  let tier := renderTier width
  let rows := sortedDates.map fun date =>
    usageRow tier date ((dailyStats.lookup date).getD defaultDailyStats)
  [usageTopLine tier, usageHeader tier, usageMidLine tier] ++ rows ++
    [usageMidLine tier, usageTotalRow tier (usageTotals dailyStats sortedDates),
     usageBottomLine tier]

def joinLines : List String → String
  | [] => ""
  | [l] => l
  | l :: ls => l ++ "\n" ++ joinLines ls

/-- Function `renderUsageTable` from `usage-table.ts`.  The JS `Map<string, DailyStats>`
is modelled as its insertion-ordered association list (a `Map` never holds a
key twice). -/
def renderUsageTable (dailyStats : List (String × DailyStats))
    (width : Option Int := none) : String :=
  if ((dailyStats.map Prod.fst).mergeSort strLe).length = 0 then "No usage data"
  else joinLines (renderUsageTableLines dailyStats width)

/-- Bool substring test (`String.prototype.includes`): `sub` occurs in `s` iff
it is a prefix of some suffix of `s`. -/
def containsStr (s sub : String) : Bool :=
  s.data.tails.any fun t => sub.data.isPrefixOf t

/-! ### Concrete fixtures used by counterexamples and witnesses -/

def tokStd : TokenUsage := { input := 100, output := 50, reasoning := 0, cache := ⟨0, 0⟩ }

/-- A store row whose payload the validity filter rejects (consumer role). -/
def userRow5 : MessageRow :=
  { id := "user-1", session_id := "ses-1", time_created := 5,
    data := .ok { role := "user", tokens := some tokStd } }

/-- Result of `rowToMessage` applied to `userRow5`. -/
def userMsg5 : MessageJson :=
  { id := "user-1", sessionID := "ses-1", role := "user", tokens := some tokStd }

/-- An accepted producer row at timestamp 2000. -/
def asstRow2000 : MessageRow :=
  { id := "asst-1", session_id := "ses-1", time_created := 2000,
    data := .ok { role := "assistant",
                  model := some ⟨"anthropic", "claude-3-5-sonnet"⟩,
                  tokens := some tokStd } }

def asstMsg2000 : MessageJson :=
  { id := "asst-1", sessionID := "ses-1", role := "assistant",
    model := some ⟨"anthropic", "claude-3-5-sonnet"⟩, tokens := some tokStd }

/-- A producer message whose provider id is upper-case. -/
def asstMsgUpper : MessageJson :=
  { id := "m1", sessionID := "ses-1", role := "assistant",
    model := some ⟨"ANTHROPIC", "claude-3-5-sonnet"⟩, tokens := some tokStd }

/-- Replace a day's model set by just the alphabetically first model truncated
to its first 28 characters (the only model data the wide-tier row displays). -/
def keepFirstModel (s : DailyStats) : DailyStats :=
  { s with models :=
      match (s.models.mergeSort strLe).head? with
      | some m => [strTake m 28]
      | none => [] }

def dayStats0 : DailyStats :=
  { date := "2025-02-11", models := ["claude-opus-4-5", "gpt-4o"],
    providers := ["anthropic"], input := 1000000, output := 500000,
    cacheWrite := 0, cacheRead := 0, reasoning := 0, cost := (2469 : Rat) / 20 }

def window48 : RateLimitWindow := { used_percent := 48, reset_at := some 1000 }

def codexResp48 : CodexUsageResponse :=
  { rate_limit := some { primary_window := some window48 } }

def httpResp48 : HttpResponse := { ok := true, status := 200, json := .ok codexResp48 }

/-! ## Helper lemmas -/

abbrev tsMax (acc : Int) (r : MessageRow) : Int :=
  if acc < r.time_created then r.time_created else acc

lemma le_foldl_tsMax (rows : List MessageRow) (c : Int) :
    c ≤ rows.foldl tsMax c := by
  induction rows generalizing c with
  | nil => simp
  | cons r rs ih =>
    simp only [List.foldl_cons]
    refine le_trans ?_ (ih (tsMax c r))
    simp only [tsMax]
    split <;> omega

lemma mem_le_foldl_tsMax (rows : List MessageRow) (c : Int) {r : MessageRow}
    (hr : r ∈ rows) : r.time_created ≤ rows.foldl tsMax c := by
  induction rows generalizing c with
  | nil => simp at hr
  | cons a rs ih =>
    simp only [List.foldl_cons]
    rcases List.mem_cons.mp hr with h | h
    · subst h
      refine le_trans ?_ (le_foldl_tsMax rs _)
      simp only [tsMax]
      split <;> omega
    · exact ih _ h

lemma loadMessagesIncremental_error (e : String) (c : CursorState) (pf : Option String) :
    loadMessagesIncremental (.error e) c pf =
      { messages := [], cursor := ⟨c.lastTimestamp⟩,
        log := ["Error in incremental load: " ++ e] } := rfl

lemma loadMessagesIncremental_ok_error {allRows : List MessageRow} {c : CursorState}
    {e : String}
    (h : rowsToMessages (allRows.filter fun r => c.lastTimestamp < r.time_created) =
      .error e) (pf : Option String) :
    loadMessagesIncremental (.ok allRows) c pf =
      { messages := [], cursor := ⟨c.lastTimestamp⟩,
        log := ["Error in incremental load: " ++ e] } := by
  simp only [loadMessagesIncremental, h]

lemma loadMessagesIncremental_ok_ok {allRows : List MessageRow} {c : CursorState}
    {msgs : List MessageJson}
    (h : rowsToMessages (allRows.filter fun r => c.lastTimestamp < r.time_created) =
      .ok msgs) (pf : Option String) :
    loadMessagesIncremental (.ok allRows) c pf =
      { messages := msgs.filter (fun m => isValidMessage m pf),
        cursor := ⟨(allRows.filter fun r => c.lastTimestamp < r.time_created).foldl
          tsMax c.lastTimestamp⟩,
        log := [] } := by
  simp only [loadMessagesIncremental, h]

/-- After a successful incremental load, no row of the same store is strictly
newer than the returned cursor value. -/
lemma no_row_after_foldl_tsMax (allRows : List MessageRow) (c : CursorState) :
    allRows.filter
        (fun r =>
          (allRows.filter fun s => c.lastTimestamp < s.time_created).foldl
              tsMax c.lastTimestamp < r.time_created) = [] := by
  apply List.filter_eq_nil_iff.mpr
  intro r hr
  simp only [decide_eq_true_eq]
  intro hlt
  have hc : c.lastTimestamp < r.time_created :=
    lt_of_le_of_lt (le_foldl_tsMax _ _) hlt
  have hmem : r ∈ allRows.filter fun s => c.lastTimestamp < s.time_created := by
    simp [List.mem_filter, hr, hc]
  exact absurd (mem_le_foldl_tsMax _ _ hmem) (not_le.mpr hlt)

/-! ## Claims -/

/-- Claim C1 (Idempotent incremental load): for every store state, after
`loadMessagesIncremental` returns cursor `c'`, an immediate second call over the
same unchanged store returns an empty messages list and a cursor equal to `c'`.
(Proved unconditionally, i.e. also when the first call fails.) -/
theorem c1_incremental_idempotent (store : Except String (List MessageRow))
    (c : CursorState) (pf : Option String) :
    (loadMessagesIncremental store (loadMessagesIncremental store c pf).cursor pf).messages
        = [] ∧
    (loadMessagesIncremental store (loadMessagesIncremental store c pf).cursor pf).cursor
        = (loadMessagesIncremental store c pf).cursor := by
  cases store with
  | error e =>
    rw [loadMessagesIncremental_error, loadMessagesIncremental_error]
    exact ⟨rfl, rfl⟩
  | ok allRows =>
    cases hm : rowsToMessages (allRows.filter fun r => c.lastTimestamp < r.time_created) with
    | error e =>
      rw [loadMessagesIncremental_ok_error hm pf]
      rw [show (⟨c.lastTimestamp⟩ : CursorState) = c from rfl]
      rw [loadMessagesIncremental_ok_error hm pf]
      exact ⟨rfl, rfl⟩
    | ok msgs =>
      rw [loadMessagesIncremental_ok_ok hm pf]
      have h2 :
          rowsToMessages (allRows.filter fun r =>
            (⟨(allRows.filter fun s => c.lastTimestamp < s.time_created).foldl
                tsMax c.lastTimestamp⟩ : CursorState).lastTimestamp < r.time_created) =
            .ok [] := by
        rw [show (⟨(allRows.filter fun s => c.lastTimestamp < s.time_created).foldl
              tsMax c.lastTimestamp⟩ : CursorState).lastTimestamp =
            (allRows.filter fun s => c.lastTimestamp < s.time_created).foldl
              tsMax c.lastTimestamp from rfl]
        rw [no_row_after_foldl_tsMax allRows c]
        rfl
      rw [loadMessagesIncremental_ok_ok h2 pf]
      refine ⟨rfl, ?_⟩
      simp [no_row_after_foldl_tsMax allRows c]

/-- Claim C2 (Failure atomicity): if opening or querying the store throws, the
incremental loader returns an empty batch, a cursor with the caller's
`lastTimestamp`, and a logged error — it never raises (the embedding is a total
function). -/
theorem c2_incremental_failure_atomic (e : String) (c : CursorState) (pf : Option String) :
    (loadMessagesIncremental (.error e) c pf).messages = [] ∧
    (loadMessagesIncremental (.error e) c pf).cursor.lastTimestamp = c.lastTimestamp ∧
    (loadMessagesIncremental (.error e) c pf).log ≠ [] := by
  rw [loadMessagesIncremental_error]
  exact ⟨rfl, rfl, by simp⟩

/-- Claim C4 (Cursor monotonicity): every single incremental call — over any
store, including failing ones — returns a cursor with
`lastTimestamp ≥` the input cursor's, and hence the checkpoint never decreases
across any sequence of successive incremental calls. -/
theorem c4_cursor_monotonic (pf : Option String) :
    (∀ (store : Except String (List MessageRow)) (c : CursorState),
      c.lastTimestamp ≤ (loadMessagesIncremental store c pf).cursor.lastTimestamp) ∧
    (∀ (stores : List (Except String (List MessageRow))) (c : CursorState),
      c.lastTimestamp ≤
        (stores.foldl (fun cur st => (loadMessagesIncremental st cur pf).cursor) c).lastTimestamp) := by
  have hstep : ∀ (store : Except String (List MessageRow)) (c : CursorState),
      c.lastTimestamp ≤ (loadMessagesIncremental store c pf).cursor.lastTimestamp := by
    intro store c
    cases store with
    | error e => rw [loadMessagesIncremental_error]
    | ok allRows =>
      cases hm : rowsToMessages (allRows.filter fun r => c.lastTimestamp < r.time_created) with
      | error e => rw [loadMessagesIncremental_ok_error hm pf]
      | ok msgs =>
        rw [loadMessagesIncremental_ok_ok hm pf]
        exact le_foldl_tsMax _ _
  refine ⟨hstep, ?_⟩
  intro stores
  induction stores with
  | nil => intro c; simp
  | cons st rest ih =>
    intro c
    simp only [List.foldl_cons]
    exact le_trans (hstep st c) (ih _)

lemma foldl_tsMax_cases (rows : List MessageRow) (c : Int) :
    rows.foldl tsMax c = c ∨ ∃ r ∈ rows, rows.foldl tsMax c = r.time_created := by
  induction rows generalizing c with
  | nil => exact Or.inl rfl
  | cons a rs ih =>
    simp only [List.foldl_cons]
    rcases ih (tsMax c a) with h | ⟨r, hr, hE⟩
    · by_cases hca : c < a.time_created
      · refine Or.inr ⟨a, List.mem_cons_self _ _, ?_⟩
        rw [h]
        simp [tsMax, hca]
      · refine Or.inl ?_
        rw [h]
        simp [tsMax, hca]
    · exact Or.inr ⟨r, List.mem_cons_of_mem _ hr, hE⟩

/-- Claim C3 counterexample: a store holding a single record that the validity
filter rejects (consumer role) at timestamp 5.  The accepted batch is empty, so
the claimed checkpoint `max(cursor, max timestamp among accepted records)`
would be the input cursor `0`, yet the loader returns cursor 5: the rejected
record contributed its timestamp. -/
theorem c3_checkpoint_counterexample :
    (loadMessagesIncremental (.ok [userRow5]) ⟨0⟩ none).messages = [] ∧
    (loadMessagesIncremental (.ok [userRow5]) ⟨0⟩ none).cursor.lastTimestamp = 5 ∧
    (loadMessagesIncremental (.ok [userRow5]) ⟨0⟩ none).cursor.lastTimestamp ≠ 0 := by
  refine ⟨by decide, by decide, by decide⟩

/-- Claim C3 amended: on a successful incremental load, the returned checkpoint
is the maximum of the input checkpoint and the `time_created` of **all** rows
returned by the `time_created > cursor` query — including rows rejected by the
validity filter (together with `c4_cursor_monotonic` this pins the cursor to
exactly that maximum). -/
theorem c3_checkpoint_max_over_queried_rows (allRows : List MessageRow)
    (c : CursorState) (pf : Option String) (msgs : List MessageJson)
    (h : rowsToMessages (allRows.filter fun r => c.lastTimestamp < r.time_created) =
      .ok msgs) :
    (∀ r ∈ allRows.filter (fun r => c.lastTimestamp < r.time_created),
        r.time_created ≤ (loadMessagesIncremental (.ok allRows) c pf).cursor.lastTimestamp) ∧
    ((loadMessagesIncremental (.ok allRows) c pf).cursor.lastTimestamp = c.lastTimestamp ∨
      ∃ r ∈ allRows.filter (fun r => c.lastTimestamp < r.time_created),
        (loadMessagesIncremental (.ok allRows) c pf).cursor.lastTimestamp =
          r.time_created) := by
  rw [loadMessagesIncremental_ok_ok h pf]
  exact ⟨fun r hr => mem_le_foldl_tsMax _ _ hr, foldl_tsMax_cases _ _⟩

/-- Witness for `c3_checkpoint_max_over_queried_rows` at a concrete store. -/
theorem c3_checkpoint_max_witness :
    rowsToMessages ([userRow5].filter fun r =>
        (⟨0⟩ : CursorState).lastTimestamp < r.time_created) = .ok [userMsg5] ∧
    ((loadMessagesIncremental (.ok [userRow5]) ⟨0⟩ none).cursor.lastTimestamp =
        (⟨0⟩ : CursorState).lastTimestamp ∨
      ∃ r ∈ [userRow5].filter (fun r =>
          (⟨0⟩ : CursorState).lastTimestamp < r.time_created),
        (loadMessagesIncremental (.ok [userRow5]) ⟨0⟩ none).cursor.lastTimestamp =
          r.time_created) :=
  ⟨rfl, (c3_checkpoint_max_over_queried_rows [userRow5] ⟨0⟩ none [userMsg5] rfl).2⟩

lemma isValidMessage_role_tokens {m : MessageJson} {pf : Option String}
    (h : isValidMessage m pf = true) : m.role ≠ "user" ∧ m.tokens.isSome = true := by
  by_cases h1 : m.role = "user"
  · simp [isValidMessage, h1] at h
  · by_cases h2 : m.tokens.isNone
    · simp [isValidMessage, h1, h2] at h
    · refine ⟨h1, ?_⟩
      cases ht : m.tokens with
      | none => rw [ht] at h2; simp at h2
      | some t => rfl

lemma all_valid_of_filter (pf : Option String) (l : List MessageJson) :
    (l.filter fun m => isValidMessage m pf).all
      (fun m => !(m.role == "user") && m.tokens.isSome) = true := by
  rw [List.all_eq_true]
  intro m hm
  obtain ⟨h1, h2⟩ := isValidMessage_role_tokens ((List.mem_filter.mp hm).2)
  simp [h1, h2]

lemma loadRecentMessages_ok (rows : List MessageRow) (now hoursBack : Int)
    (pf : Option String) :
    loadRecentMessages (.ok rows) now hoursBack pf =
      match rowsToMessages (rows.filter fun r =>
          now - hoursBack * 60 * 60 * 1000 ≤ r.time_created) with
      | .ok msgs => msgs.filter (fun m => isValidMessage m pf)
      | .error _ => [] := rfl

/-- Unfolding: `loadMessagesFs` filters with the inline predicate, which coincides with
`isValidMessage`. -/
lemma loadMessagesFs_eq (files : Except String (List (Option MessageJson)))
    (pf : Option String) :
    loadMessagesFs files pf =
      match files with
      | .error _ => []
      | .ok results =>
        (results.filterMap id).filter fun m => isValidMessage m pf := rfl

/-- Claim C5 (Validity-filter correctness): on every load path — `loadMessages`,
`loadRecentMessages`, `loadMessagesIncremental` and the file-tree
`loadMessages` — no returned record has the consumer role `"user"` and none
lacks a token breakdown. -/
theorem c5_no_invalid_record_on_any_load_path (store : Except String (List MessageRow))
    (now hoursBack : Int) (c : CursorState) (pf : Option String)
    (files : Except String (List (Option MessageJson))) :
    ((loadMessages store pf).all
        (fun m => !(m.role == "user") && m.tokens.isSome) = true) ∧
    ((loadRecentMessages store now hoursBack pf).all
        (fun m => !(m.role == "user") && m.tokens.isSome) = true) ∧
    ((loadMessagesIncremental store c pf).messages.all
        (fun m => !(m.role == "user") && m.tokens.isSome) = true) ∧
    ((loadMessagesFs files pf).all
        (fun m => !(m.role == "user") && m.tokens.isSome) = true) := by
  refine ⟨?_, ?_, ?_, ?_⟩
  · cases store with
    | error e => rfl
    | ok rows =>
      cases hm : rowsToMessages rows with
      | error e => simp [loadMessages, hm]
      | ok msgs =>
        simp only [loadMessages, hm]
        exact all_valid_of_filter pf msgs
  · cases store with
    | error e => rfl
    | ok rows =>
      rw [loadRecentMessages_ok]
      cases hm : rowsToMessages (rows.filter fun r =>
          now - hoursBack * 60 * 60 * 1000 ≤ r.time_created) with
      | error e => rfl
      | ok msgs => exact all_valid_of_filter pf msgs
  · cases store with
    | error e => rw [loadMessagesIncremental_error]; rfl
    | ok allRows =>
      cases hm : rowsToMessages (allRows.filter fun r =>
          c.lastTimestamp < r.time_created) with
      | error e => rw [loadMessagesIncremental_ok_error hm pf]; rfl
      | ok msgs =>
        rw [loadMessagesIncremental_ok_ok hm pf]
        exact all_valid_of_filter pf msgs
  · rw [loadMessagesFs_eq]
    cases files with
    | error e => rfl
    | ok results => exact all_valid_of_filter pf (results.filterMap id)

/-- Claim C6 counterexample: a record whose provider id (`"ANTHROPIC"`) differs
from the filter value (`"Anthropic"`) only in letter case, passes the role and
token checks, and yet is rejected — while the all-lowercase filter accepts it.
The match is therefore not case-insensitive in the filter value. -/
theorem c6_provider_filter_counterexample :
    toLowerCase "ANTHROPIC" = toLowerCase "Anthropic" ∧
    providerIdOf asstMsgUpper = "ANTHROPIC" ∧
    asstMsgUpper.role ≠ "user" ∧
    asstMsgUpper.tokens.isSome = true ∧
    isValidMessage asstMsgUpper (some "Anthropic") = false ∧
    isValidMessage asstMsgUpper (some "anthropic") = true := by
  refine ⟨by decide, by decide, by decide, by decide, by decide, by decide⟩

/-- Claim C6 amended: the provider match lowercases only the record's provider id
and compares it verbatim with the configured filter: with a non-empty filter
`f`, a record is accepted iff it passes the role/token checks and
`toLowerCase (providerId) = f`.  Acceptance is therefore insensitive to the
case of the record's provider id (records whose ids agree after lowercasing
are treated identically), but not to the case of the filter value. -/
theorem c6_provider_filter_lowercases_record_only (msg : MessageJson) (f : String)
    (hf : f ≠ "") :
    (isValidMessage msg (some f) = true ↔
      msg.role ≠ "user" ∧ msg.tokens.isSome = true ∧
        toLowerCase (providerIdOf msg) = f) ∧
    (∀ m₂ : MessageJson, m₂.role = msg.role → m₂.tokens = msg.tokens →
      toLowerCase (providerIdOf m₂) = toLowerCase (providerIdOf msg) →
      isValidMessage m₂ (some f) = isValidMessage msg (some f)) := by
  constructor
  · by_cases h1 : msg.role = "user"
    · simp [isValidMessage, h1]
    · by_cases h2 : msg.tokens.isNone
      · have : msg.tokens.isSome = false := by
          cases ht : msg.tokens with
          | none => rfl
          | some t => rw [ht] at h2; simp at h2
        simp [isValidMessage, h1, h2, this]
      · have hs : msg.tokens.isSome = true := by
          cases ht : msg.tokens with
          | none => rw [ht] at h2; simp at h2
          | some t => rfl
        by_cases h3 : toLowerCase (providerIdOf msg) = f
        · simp [isValidMessage, h1, h2, hf, h3, hs]
        · simp [isValidMessage, h1, h2, hf, h3, hs]
  · intro m₂ hrole htok hprov
    simp only [isValidMessage, hrole, htok, hprov]

/-- Witness for `c6_provider_filter_lowercases_record_only`: the upper-cased
record is accepted by the lowercase filter value. -/
theorem c6_provider_filter_witness :
    isValidMessage asstMsgUpper (some "anthropic") = true :=
  (c6_provider_filter_lowercases_record_only asstMsgUpper "anthropic"
      (by decide)).1.mpr ⟨by decide, by decide, by decide⟩

lemma mem_codexWindowSnapshots {data : CodexUsageResponse} {s : QuotaSnapshot} :
    s ∈ codexWindowSnapshots data →
    s.error = none ∧ ∃ w, isWindowOf data w ∧ s.used = w.used_percent / 100 := by
  intro hs
  simp only [codexWindowSnapshots, List.mem_append] at hs
  rcases hs with (hs | hs) | hs
  · cases h1 : data.rate_limit >>= RateLimit.primary_window with
    | none => rw [h1] at hs; simp at hs
    | some w =>
      rw [h1] at hs
      simp only [List.mem_singleton] at hs
      subst hs
      exact ⟨rfl, w, Or.inl h1, rfl⟩
  · cases h2 : data.rate_limit >>= RateLimit.secondary_window with
    | none => rw [h2] at hs; simp at hs
    | some w =>
      rw [h2] at hs
      simp only [List.mem_singleton] at hs
      subst hs
      exact ⟨rfl, w, Or.inr (Or.inl h2), rfl⟩
  · cases h3 : data.code_review_rate_limit >>= RateLimit.primary_window with
    | none => rw [h3] at hs; simp at hs
    | some w =>
      rw [h3] at hs
      simp only [List.mem_singleton] at hs
      subst hs
      exact ⟨rfl, w, Or.inr (Or.inr h3), rfl⟩

/-- Every run of `loadCodexQuota` either yields a single error snapshot or the
non-empty window-snapshot list of a successfully parsed response. -/
lemma loadCodexQuota_cases (token : Option String)
    (fetchResult : Except String HttpResponse) :
    (∃ msg, loadCodexQuota token fetchResult =
        [{ source := "codex", label := "Codex", used := 0, error := some msg }]) ∨
    (∃ resp data, fetchResult = .ok resp ∧ resp.ok = true ∧ resp.json = .ok data ∧
      loadCodexQuota token fetchResult = codexWindowSnapshots data ∧
      codexWindowSnapshots data ≠ []) := by
  cases token with
  | none => exact Or.inl ⟨"No --codex-token provided", rfl⟩
  | some t =>
    by_cases ht : t = ""
    · subst ht
      exact Or.inl ⟨"No --codex-token provided", rfl⟩
    · cases fetchResult with
      | error e =>
        refine Or.inl ⟨"Request failed: " ++ e, ?_⟩
        simp [loadCodexQuota, ht]
      | ok resp =>
        cases hok : resp.ok with
        | false =>
          refine Or.inl ⟨"API error: " ++ toString resp.status, ?_⟩
          simp [loadCodexQuota, ht, hok]
        | true =>
          cases hjson : resp.json with
          | error e =>
            refine Or.inl ⟨"Request failed: " ++ e, ?_⟩
            simp [loadCodexQuota, ht, hok, hjson]
          | ok data =>
            by_cases hlen : (codexWindowSnapshots data).length > 0
            · refine Or.inr ⟨resp, data, rfl, hok, hjson, ?_, ?_⟩
              · simp [loadCodexQuota, ht, hok, hjson, hlen]
              · exact List.ne_nil_of_length_pos hlen
            · refine Or.inl ⟨"No rate limit data", ?_⟩
              simp [loadCodexQuota, ht, hok, hjson, hlen]

/-- Claim C7 (Codex quota loader never raises): `loadCodexQuota` is total and for
every input — absent token, thrown fetch, non-ok response, malformed body or a
body with no windows — it returns a non-empty snapshot list in which either
every snapshot carries a populated error string, or every snapshot is
error-free and carries a used fraction taken from one of the response's
rate-limit windows. -/
theorem c7_codex_quota_total (token : Option String)
    (fetchResult : Except String HttpResponse) :
    loadCodexQuota token fetchResult ≠ [] ∧
    ((∀ s ∈ loadCodexQuota token fetchResult, s.error.isSome = true) ∨
      (∃ resp data, fetchResult = .ok resp ∧ resp.json = .ok data ∧
        ∀ s ∈ loadCodexQuota token fetchResult,
          s.error = none ∧ ∃ w, isWindowOf data w ∧ s.used = w.used_percent / 100)) := by
  rcases loadCodexQuota_cases token fetchResult with ⟨msg, hE⟩ |
    ⟨resp, data, hfr, hok, hjson, hE, hne⟩
  · rw [hE]
    refine ⟨by simp, Or.inl ?_⟩
    intro s hs
    simp only [List.mem_singleton] at hs
    subst hs
    rfl
  · rw [hE]
    refine ⟨hne, Or.inr ⟨resp, data, hfr, hjson, ?_⟩⟩
    intro s hs
    exact mem_codexWindowSnapshots hs

/-- Claim C8 (percent-to-fraction normalization): every error-free snapshot built
by `loadCodexQuota` has `used` equal to some rate-limit window's
`used_percent / 100`, and whenever every window's `used_percent` lies in
`[0, 100]`, every returned snapshot's `used` lies in `[0, 1]`. -/
theorem c8_codex_percent_normalization (token : Option String)
    (fetchResult : Except String HttpResponse) :
    (∀ s ∈ loadCodexQuota token fetchResult, s.error = none →
      ∃ resp data w, fetchResult = .ok resp ∧ resp.json = .ok data ∧
        isWindowOf data w ∧ s.used = w.used_percent / 100) ∧
    ((∀ resp data w, fetchResult = .ok resp → resp.json = .ok data →
        isWindowOf data w → 0 ≤ w.used_percent ∧ w.used_percent ≤ 100) →
      ∀ s ∈ loadCodexQuota token fetchResult, 0 ≤ s.used ∧ s.used ≤ 1) := by
  rcases loadCodexQuota_cases token fetchResult with ⟨msg, hE⟩ |
    ⟨resp, data, hfr, hok, hjson, hE, hne⟩
  · rw [hE]
    constructor
    · intro s hs herr
      simp only [List.mem_singleton] at hs
      subst hs
      simp at herr
    · intro _ s hs
      simp only [List.mem_singleton] at hs
      subst hs
      norm_num
  · rw [hE]
    constructor
    · intro s hs _
      obtain ⟨_, w, hw, hu⟩ := mem_codexWindowSnapshots hs
      exact ⟨resp, data, w, hfr, hjson, hw, hu⟩
    · intro hbound s hs
      obtain ⟨_, w, hw, hu⟩ := mem_codexWindowSnapshots hs
      obtain ⟨h0, h100⟩ := hbound resp data w hfr hjson hw
      rw [hu]
      constructor
      · positivity
      · rw [div_le_one (by norm_num)]
        linarith

/-- Witness for `c8_codex_percent_normalization`: a response with one window at
48 percent yields snapshots whose used fractions lie in `[0, 1]`. -/
theorem c8_codex_percent_witness :
    ∀ s ∈ loadCodexQuota (some "tok") (.ok httpResp48), 0 ≤ s.used ∧ s.used ≤ 1 :=
  (c8_codex_percent_normalization (some "tok") (.ok httpResp48)).2
    (by
      intro resp data w hresp hjson hw
      cases hresp
      have hd : data = codexResp48 := by
        have : Except.ok (ε := String) codexResp48 = Except.ok data := hjson
        cases this
        rfl
      subst hd
      have hw48 : w = window48 := by
        rcases hw with h | h | h <;>
          first
            | (have : some window48 = some w := h; cases this; rfl)
            | simp [codexResp48] at h
      subst hw48
      norm_num [window48])

lemma containsStr_eq_true_iff (s sub : String) :
    containsStr s sub = true ↔ sub.data <:+: s.data := by
  unfold containsStr
  rw [List.any_eq_true]
  constructor
  · rintro ⟨t, ht, hp⟩
    rw [List.mem_tails] at ht
    exact (List.isPrefixOf_iff_prefix.mp hp).isInfix.trans ht.isInfix
  · rintro ⟨pre, suf, hps⟩
    refine ⟨sub.data ++ suf, ?_, ?_⟩
    · rw [List.mem_tails]
      refine ⟨pre, ?_⟩
      rw [← List.append_assoc]
      exact hps
    · exact List.isPrefixOf_iff_prefix.mpr (List.prefix_append _ _)

lemma containsStr_refl (s : String) : containsStr s s = true :=
  (containsStr_eq_true_iff s s).mpr ⟨[], [], by simp⟩

lemma containsStr_empty (s : String) : containsStr s "" = true :=
  (containsStr_eq_true_iff s "").mpr ⟨[], s.data, by simp⟩

lemma containsStr_append_left {s sub : String} (t : String)
    (h : containsStr s sub = true) : containsStr (t ++ s) sub = true := by
  rw [containsStr_eq_true_iff] at h ⊢
  obtain ⟨pre, suf, hps⟩ := h
  refine ⟨t.data ++ pre, suf, ?_⟩
  rw [String.data_append, ← hps]
  simp [List.append_assoc]

lemma containsStr_append_right {s sub : String} (t : String)
    (h : containsStr s sub = true) : containsStr (s ++ t) sub = true := by
  rw [containsStr_eq_true_iff] at h ⊢
  obtain ⟨pre, suf, hps⟩ := h
  refine ⟨pre, suf ++ t.data, ?_⟩
  rw [String.data_append, ← hps]
  simp [List.append_assoc]

lemma joinLines_cons (a : String) (l : List String) (hl : l ≠ []) :
    joinLines (a :: l) = a ++ "\n" ++ joinLines l := by
  cases l with
  | nil => exact absurd rfl hl
  | cons b bs => rfl

/-- Claim C9 (usage-table column shrinking by width tier): for every non-empty
daily aggregate and every width, the rendered table starts with its border and
header lines, and the header always contains the Date and Cost columns, shows
the Models column exactly in the wide tier and the Tokens column exactly
outside the narrow tier — so as the tier narrows the Models column is omitted
first, then the Tokens column, and the wide tier carries all four columns. -/
theorem c9_usage_table_column_tiers (dailyStats : List (String × DailyStats))
    (width : Option Int) (h : dailyStats ≠ []) :
    (∃ rest, renderUsageTable dailyStats width =
        usageTopLine (renderTier width) ++ "\n" ++
          (usageHeader (renderTier width) ++ "\n" ++ rest)) ∧
    containsStr (usageHeader (renderTier width)) "Date" = true ∧
    containsStr (usageHeader (renderTier width)) "Cost" = true ∧
    (containsStr (usageHeader (renderTier width)) "Models" = true ↔
      renderTier width = .wide) ∧
    (containsStr (usageHeader (renderTier width)) "Tokens" = true ↔
      renderTier width ≠ .narrow) := by
  constructor
  · have hlen : ¬ ((dailyStats.map Prod.fst).mergeSort strLe).length = 0 := by
      rw [List.length_mergeSort, List.length_map]
      exact fun hc => h (List.length_eq_zero.mp hc)
    simp only [renderUsageTable, if_neg hlen]
    exact ⟨_, rfl⟩
  · rcases hT : renderTier width with _ | _ | _
    · exact ⟨by decide, by decide, by decide, by decide⟩
    · exact ⟨by decide, by decide, by decide, by decide⟩
    · exact ⟨by decide, by decide, by decide, by decide⟩

/-- Witness for `c9_usage_table_column_tiers` on a one-day aggregate. -/
theorem c9_usage_table_witness :
    ([("2025-02-11", dayStats0)] : List (String × DailyStats)) ≠ [] ∧
    (containsStr (usageHeader (renderTier (some 90))) "Date" = true ∧
      containsStr (usageHeader (renderTier (some 90))) "Cost" = true ∧
      (containsStr (usageHeader (renderTier (some 90))) "Models" = true ↔
        renderTier (some 90) = .wide) ∧
      (containsStr (usageHeader (renderTier (some 90))) "Tokens" = true ↔
        renderTier (some 90) ≠ .narrow)) :=
  ⟨List.cons_ne_nil _ _,
    (c9_usage_table_column_tiers [("2025-02-11", dayStats0)] (some 90)
        (List.cons_ne_nil _ _)).2⟩

lemma lookup_map_snd (l : List (String × DailyStats)) (k : String)
    (f : DailyStats → DailyStats) :
    (l.map fun e => (e.1, f e.2)).lookup k = (l.lookup k).map f := by
  induction l with
  | nil => rfl
  | cons a rest ih =>
    rcases a with ⟨k', v⟩
    by_cases hk : (k == k') = true
    · simp [List.lookup_cons, hk]
    · have hk' : (k == k') = false := by simpa using hk
      simp [List.lookup_cons, hk', ih]

lemma keepFirstModel_default : keepFirstModel defaultDailyStats = defaultDailyStats := by
  simp [keepFirstModel, defaultDailyStats, List.mergeSort_nil]

lemma strTake_strTake (s : String) (n : Nat) : strTake (strTake s n) n = strTake s n := by
  simp [strTake, List.take_take]

lemma usageRow_keepFirstModel (tier : TableWidthTier) (date : String) (s : DailyStats) :
    usageRow tier date (keepFirstModel s) = usageRow tier date s := by
  cases tier with
  | narrow => rfl
  | medium => rfl
  | wide =>
    cases hh : (s.models.mergeSort strLe).head? with
    | none =>
      simp [usageRow, keepFirstModel, hh, List.mergeSort_nil]
    | some m =>
      simp [usageRow, keepFirstModel, hh, List.mergeSort_singleton, strTake_strTake]

lemma usageTotals_map_keepFirstModel (l : List (String × DailyStats))
    (dates : List String) :
    usageTotals (l.map fun e => (e.1, keepFirstModel e.2)) dates =
      usageTotals l dates := by
  unfold usageTotals
  apply List.foldl_ext
  intro acc date _
  rw [lookup_map_snd]
  cases hl : l.lookup date with
  | none => simp [keepFirstModel_default]
  | some v => simp [keepFirstModel]

/-- Claim C10 (wide tier displays only the first model): replacing every day's
model set by just its alphabetically first element truncated to 28 characters
leaves the rendered table byte-for-byte unchanged — the remaining models never
appear in the output — and the wide-tier row does contain that truncated first
model. -/
theorem c10_wide_tier_first_model_only (dailyStats : List (String × DailyStats))
    (width : Option Int) :
    renderUsageTable (dailyStats.map fun e => (e.1, keepFirstModel e.2)) width =
      renderUsageTable dailyStats width ∧
    ∀ (date : String) (s : DailyStats),
      containsStr (usageRow .wide date s)
        (strTake (((s.models.mergeSort strLe).head?).getD "") 28) = true := by
  constructor
  · have hkeys : (dailyStats.map fun e => (e.1, keepFirstModel e.2)).map Prod.fst =
        dailyStats.map Prod.fst := by
      rw [List.map_map]
      rfl
    have hrow : ∀ date,
        usageRow (renderTier width) date
            (((dailyStats.map fun e => (e.1, keepFirstModel e.2)).lookup date).getD
              defaultDailyStats) =
          usageRow (renderTier width) date
            ((dailyStats.lookup date).getD defaultDailyStats) := by
      intro date
      rw [lookup_map_snd]
      cases hl : dailyStats.lookup date with
      | none => simp [keepFirstModel_default]
      | some v => simp [usageRow_keepFirstModel]
    unfold renderUsageTable
    rw [hkeys]
    by_cases h0 : ((dailyStats.map Prod.fst).mergeSort strLe).length = 0
    · simp [h0]
    · simp only [if_neg h0]
      unfold renderUsageTableLines
      dsimp only
      rw [hkeys, usageTotals_map_keepFirstModel,
        List.map_congr_left fun a _ => hrow a]
  · intro date s
    cases hh : (s.models.mergeSort strLe).head? with
    | none =>
      exact containsStr_empty _
    | some m =>
      show containsStr (usageRow .wide date s) (strTake m 28) = true
      have h1 : containsStr (padRight (" " ++ strTake m 28) 30) (strTake m 28) = true := by
        unfold padRight
        exact containsStr_append_right _ (containsStr_append_left _ (containsStr_refl _))
      simp only [usageRow, hh]
      apply containsStr_append_right
      apply containsStr_append_right
      apply containsStr_append_right
      apply containsStr_append_right
      apply containsStr_append_right
      apply containsStr_append_left
      exact h1

end OpencodeUsage
